import Mathlib

/-!
Verification of the insider-threat-detection pipeline.

This file gives a shallow embedding of the core pipeline code
(`src/alerts/alert_manager.py` and `src/real_time/anomaly_engine.py`)
and proves properties of the alert store, the severity classifier, the
weighted score combination, the bounded event queue, the batch
accumulator, and the per-user session tracker.

Machine reals (Python floats) are modelled as rationals `ℚ`; SQLite
tables as Lean lists of rows; dictionaries as structures with `Option`
fields for keys that may be absent.
-/

namespace ThreatDetection

/-! ## Alert store (`alert_manager.py`)

The `alerts` table (`id TEXT PRIMARY KEY, ..., status TEXT DEFAULT 'open'`)
is a list of `AlertRow`; the `alert_notifications` table is a list of
`NotificationRow`. -/

structure AlertRow where
  id : String
  timestamp : String
  severity : String
  status : String
  user_id : Option String
  event_type : Option String
  anomaly_score : ℚ
  acknowledged_by : Option String
  acknowledged_at : Option String
  notes : Option String
deriving DecidableEq

structure NotificationRow where
  alert_id : String
  notification_type : String
  recipient : String
  status : String
  error_message : Option String
deriving DecidableEq

structure AlertDB where
  alerts : List AlertRow
  notifications : List NotificationRow
deriving DecidableEq

/-- Email configuration (`config.get('email', {})`).  `smtp_server = none`
models a missing or empty `smtp_server` entry. -/
structure EmailConfig where
  enabled : Bool
  smtp_server : Option String
  recipients : List String
  high_priority_recipients : List String
deriving DecidableEq

/-- Input dictionary passed to `create_alert`.  The four required keys
checked by the code (`id`, `timestamp`, `severity`, `anomaly_score`) are
`Option` fields so a missing key is representable. -/
structure AlertInput where
  id : Option String
  timestamp : Option String
  severity : Option String
  anomaly_score : Option ℚ
  user_id : Option String
  event_type : Option String
deriving DecidableEq

/-- `AlertManager._log_notification`: inserts one `alert_notifications`
row per recipient in the given list. -/
def logNotification (db : AlertDB) (alertId ty : String) (recips : List String)
    (status : String) (err : Option String) : AlertDB :=
  { db with notifications :=
      db.notifications ++ recips.map fun r =>
        { alert_id := alertId, notification_type := ty, recipient := r,
          status := status, error_message := err } }

/-- `AlertManager._send_email_notification`.  The code first returns if no
`smtp_server` is configured (nothing logged).  Otherwise it evaluates
`MimeMultipart()` — but the import is `MIMEMultipart`, so this raises
`NameError` unconditionally; the `except` branch calls
`_log_notification(alert_id, 'email', [], 'failed', str(e))` with an
empty recipient list, which inserts no rows. -/
def sendEmailNotification (cfg : EmailConfig) (db : AlertDB) (alertId : String) : AlertDB :=
  match cfg.smtp_server with
  | none => db
  | some _ =>
      logNotification db alertId "email" [] "failed"
        (some "name MimeMultipart is not defined")

/-- `AlertManager._send_alert_notifications`: emails only when email
alerts are enabled and the severity is HIGH or MEDIUM. -/
def sendAlertNotifications (cfg : EmailConfig) (db : AlertDB)
    (alertId severity : String) : AlertDB :=
  if cfg.enabled && (severity == "HIGH" || severity == "MEDIUM") then
    sendEmailNotification cfg db alertId
  else db

/-- `AlertManager.create_alert`: rejects when a required field is missing;
the `INSERT` raises an `IntegrityError` on a duplicate primary key, which
the `except` turns into `False` with no change to the store; otherwise
the row is inserted with the default status `'open'` and notifications
are dispatched. -/
def createAlert (cfg : EmailConfig) (db : AlertDB) (alert : AlertInput) :
    Bool × AlertDB :=
  match alert.id, alert.timestamp, alert.severity, alert.anomaly_score with
  | some i, some ts, some sev, some score =>
      if db.alerts.any (fun row => row.id == i) then
        (false, db)
      else
        let db1 : AlertDB :=
          { db with alerts := db.alerts ++
              [{ id := i, timestamp := ts, severity := sev, status := "open",
                 user_id := alert.user_id, event_type := alert.event_type,
                 anomaly_score := score, acknowledged_by := none,
                 acknowledged_at := none, notes := none }] }
        (true, sendAlertNotifications cfg db1 i sev)
  | _, _, _, _ => (false, db)

/-- `AlertManager.acknowledge_alert`: an unconditional
`UPDATE alerts SET status = 'acknowledged', ... WHERE id = ?`; success is
`cursor.rowcount > 0`, i.e. the id matched at least one row.  No status
is checked. -/
def acknowledgeAlert (db : AlertDB) (alertId actor now notes : String) :
    Bool × AlertDB :=
  let updated := db.alerts.map fun row =>
    if row.id == alertId then
      { row with status := "acknowledged", acknowledged_by := some actor,
                 acknowledged_at := some now, notes := some notes }
    else row
  if 0 < (db.alerts.filter (fun row => row.id == alertId)).length then
    (true, { db with alerts := updated })
  else (false, db)

/-- `AlertManager.close_alert`: same shape as `acknowledge_alert` with
`status = 'closed'` (it too stores the actor in `acknowledged_by`). -/
def closeAlert (db : AlertDB) (alertId actor now notes : String) :
    Bool × AlertDB :=
  let updated := db.alerts.map fun row =>
    if row.id == alertId then
      { row with status := "closed", acknowledged_by := some actor,
                 acknowledged_at := some now, notes := some notes }
    else row
  if 0 < (db.alerts.filter (fun row => row.id == alertId)).length then
    (true, { db with alerts := updated })
  else (false, db)

/-! ### Concrete alert-store fixtures -/

def closedRow : AlertRow :=
  { id := "a1", timestamp := "2026-01-01T00:00:00", severity := "HIGH",
    status := "closed", user_id := some "u1", event_type := some "login",
    anomaly_score := 19/20, acknowledged_by := some "alice",
    acknowledged_at := some "2026-01-01T01:00:00", notes := some "done" }

def closedDB : AlertDB := { alerts := [closedRow], notifications := [] }

def dupInput : AlertInput :=
  { id := some "a1", timestamp := some "2026-01-02T00:00:00", severity := some "MEDIUM",
    anomaly_score := some (3/4), user_id := some "u2", event_type := some "file" }

def emailOffConfig : EmailConfig :=
  { enabled := false, smtp_server := none, recipients := [],
    high_priority_recipients := [] }

def emailOnConfig : EmailConfig :=
  { enabled := true, smtp_server := some "smtp.example.com",
    recipients := ["soc@example.com"],
    high_priority_recipients := ["ciso@example.com"] }

def emptyDB : AlertDB := { alerts := [], notifications := [] }

def highInput : AlertInput :=
  { id := some "a9", timestamp := some "2026-01-03T00:00:00", severity := some "HIGH",
    anomaly_score := some (19/20), user_id := some "u3", event_type := some "login" }

/-! ## Anomaly engine: severity and score combination (`anomaly_engine.py`) -/

/-- The engine configuration fields relevant to scoring
(`alert_threshold`, default `0.7`; `high_alert_threshold`, default `0.9`). -/
structure EngineConfig where
  alert_threshold : ℚ
  high_alert_threshold : ℚ
deriving DecidableEq

def defaultConfig : EngineConfig :=
  { alert_threshold := 7/10, high_alert_threshold := 9/10 }

/-- `AnomalyEngine._get_severity_level`. -/
def getSeverityLevel (cfg : EngineConfig) (score : ℚ) : String :=
  if cfg.high_alert_threshold ≤ score then "HIGH"
  else if cfg.alert_threshold ≤ score then "MEDIUM"
  else "LOW"

/-- One event as seen by the engine.  `user_id = none` or `some ""`
models a missing/falsy `user_id`; `risk_score = none` a missing
`risk_score` key (the code then uses `0.0`). -/
structure Event where
  user_id : Option String
  event_type : String
  risk_score : Option ℚ
  timestamp : Option String
deriving DecidableEq

/-- One entry of the `results` list consumed by
`_combine_model_results`: the optional `anomaly_scores` and
`predictions` keys, and the `model_weight`. -/
structure ModelResult where
  anomaly_scores : Option (List ℚ)
  predictions : Option (List Int)
  model_weight : ℚ
deriving DecidableEq

/-- The `1e-8` guard added to the normalization denominator. -/
def epsNorm : ℚ := 1/100000000

/-- `np.min` over a nonempty list (the code only normalizes when
`len(scores) > 0`). -/
def listMin : List ℚ → ℚ
  | [] => 0
  | h :: t => t.foldl min h

def listMax : List ℚ → ℚ
  | [] => 0
  | h :: t => t.foldl max h

/-- Min-max normalization `(scores - min) / (max - min + 1e-8)`
performed on an `anomaly_scores` entry when it is nonempty. -/
def normalizeScores (l : List ℚ) : List ℚ :=
  if l.isEmpty then l
  else l.map fun x => (x - listMin l) / (listMax l - listMin l + epsNorm)

/-- The per-event score list a result contributes, after the code's
normalization: `anomaly_scores` are min-max normalized;
otherwise `predictions` map `-1 ↦ 1.0`, else `0.0`; a result with
neither key is skipped (`continue`). -/
def normalizedOutput (r : ModelResult) : Option (List ℚ) :=
  match r.anomaly_scores with
  | some s => some (normalizeScores s)
  | none =>
      match r.predictions with
      | some p => some (p.map fun v => if v = -1 then 1 else 0)
      | none => none

/-- One fold step of the accumulation loop in `_combine_model_results`:
scores of the right length are added with their weight, and the weight
joins the total. -/
def combineStep (numEvents : ℕ) (acc : List ℚ × ℚ) (r : ModelResult) :
    List ℚ × ℚ :=
  match normalizedOutput r with
  | none => acc
  | some scores =>
      if scores.length = numEvents then
        (List.zipWith (fun c s => c + r.model_weight * s) acc.1 scores,
         acc.2 + r.model_weight)
      else acc

/-- `AnomalyEngine._combine_model_results`: weighted accumulation over
`np.zeros(num_events)`, then division by `total_weight` when positive. -/
def combineModelResults (results : List ModelResult) (numEvents : ℕ) : List ℚ :=
  let acc := results.foldl (combineStep numEvents) (List.replicate numEvents 0, 0)
  if 0 < acc.2 then acc.1.map (· / acc.2) else acc.1

/-- Whether a result's (normalized) output has exactly the batch length,
i.e. it enters both the weighted sum and the weight total. -/
def contributes (numEvents : ℕ) (r : ModelResult) : Bool :=
  match normalizedOutput r with
  | some s => s.length == numEvents
  | none => false

/-- Specification-side formula (spec §4.4 step 4), written from the
spec's words for comparison with `combineModelResults`: the weighted sum
`Σ weight_i · score_i` at event index `i`, over exactly the detectors
whose normalized output has the batch length. -/
def specWeightedSum (results : List ModelResult) (n i : ℕ) : ℚ :=
  ((results.filter (contributes n)).map
    (fun r => r.model_weight * ((normalizedOutput r).getD []).getD i 0)).sum

/-- Specification-side formula: `Σ weight_i` over the same contributing
detectors. -/
def specTotalWeight (results : List ModelResult) (n : ℕ) : ℚ :=
  ((results.filter (contributes n)).map ModelResult.model_weight).sum

/-- An alert as built by `_create_alert`, restricted to the fields the
claims mention. -/
structure EngineAlert where
  severity : String
  anomaly_score : ℚ
  event : Event
  event_index : ℕ
deriving DecidableEq

/-- The alert-generation loop of `_process_anomaly_results`:
`for i, (event, score) in enumerate(zip(original_events, combined_scores)):
if score >= self.alert_threshold: ...` -/
def generateAlerts (cfg : EngineConfig) (events : List Event)
    (scores : List ℚ) : List EngineAlert :=
  (events.zip scores).enum.filterMap fun p =>
    if cfg.alert_threshold ≤ p.2.2 then
      some { severity := getSeverityLevel cfg p.2.2, anomaly_score := p.2.2,
             event := p.2.1, event_index := p.1 }
    else none

/-- `AnomalyEngine._process_anomaly_results` (alert construction part):
empty results short-circuit, otherwise scores are combined and alerts
generated. -/
def processAnomalyResults (cfg : EngineConfig) (results : List ModelResult)
    (events : List Event) : List EngineAlert :=
  if results.isEmpty then []
  else generateAlerts cfg events (combineModelResults results events.length)

/-! ### Concrete scoring fixtures: detector A (weight 0.6) and B (weight 0.4)
whose normalized scores at event index 1 are exactly 0.8 and 0.2.
With raw scores spanning [0, 1], the normalization denominator is
`1 + 1e-8`, so raw `0.8·(1 + 1e-8) = 100000001/125000000` normalizes to
exactly `0.8`, and raw `0.2·(1 + 1e-8) = 100000001/500000000` to `0.2`. -/

def exampleResultA : ModelResult :=
  { anomaly_scores := some [0, 100000001/125000000, 1], predictions := none,
    model_weight := 3/5 }

def exampleResultB : ModelResult :=
  { anomaly_scores := some [1, 100000001/500000000, 0], predictions := none,
    model_weight := 2/5 }

def exampleResults : List ModelResult := [exampleResultA, exampleResultB]

def mkEvent (uid : String) : Event :=
  { user_id := some uid, event_type := "login", risk_score := some (1/5),
    timestamp := some "2026-01-01T00:00:00" }

def exampleEvents : List Event := [mkEvent "u1", mkEvent "u2", mkEvent "u3"]

/-! ## Event queue (`AnomalyEngine.add_event`)

`Queue(maxsize)` with `put(event, block=False)`: the non-blocking put
raises `queue.Full` exactly when the queue already holds `maxsize`
items (for `maxsize > 0`); the `except` turns this into `False`. -/

structure EngineQueueState where
  is_running : Bool
  maxsize : ℕ
  queue : List Event
deriving DecidableEq

/-- `AnomalyEngine.add_event`: rejects when the engine is stopped;
stamps a missing timestamp; then a non-blocking enqueue that drops the
event (returning `false`) when the queue is full. -/
def addEvent (st : EngineQueueState) (e : Event) (nowIso : String) :
    Bool × EngineQueueState :=
  if !st.is_running then (false, st)
  else
    let e1 := if e.timestamp.isNone then { e with timestamp := some nowIso } else e
    if 0 < st.maxsize ∧ st.maxsize ≤ st.queue.length then (false, st)
    else (true, { st with queue := st.queue ++ [e1] })

/-! ## Batch accumulator (`AnomalyEngine._process_events` / `stop`) -/

/-- The consumer-loop state: the remaining queue contents, the pending
`event_batch`, `last_batch_time`, and (for specification purposes) the
list of batches handed to `_process_batch` so far. -/
structure AccState where
  queue : List Event
  event_batch : List Event
  last_batch_time : ℚ
  flushes : List (List Event)
deriving DecidableEq

/-- The `event_queue.get(timeout=1.0)` at the top of the loop: one event
moves from the queue to the pending batch; `Empty` leaves the batch
alone. -/
def dequeueStep (st : AccState) : AccState :=
  match st.queue with
  | [] => st
  | e :: rest => { st with queue := rest, event_batch := st.event_batch ++ [e] }

/-- The loop's flush condition:
`len(self.event_batch) >= self.batch_size or
(self.event_batch and current_time - self.last_batch_time >= self.batch_timeout)`. -/
def shouldProcessBatch (batchSize : ℕ) (batchTimeout : ℚ) (st : AccState)
    (now : ℚ) : Bool :=
  batchSize ≤ st.event_batch.length ||
    (!st.event_batch.isEmpty && batchTimeout ≤ now - st.last_batch_time)

/-- `AnomalyEngine._process_batch`: an empty batch returns immediately;
otherwise the batch is processed (recorded as a flush) and cleared. -/
def processBatchStep (st : AccState) : AccState :=
  if st.event_batch.isEmpty then st
  else { st with event_batch := [], flushes := st.flushes ++ [st.event_batch] }

/-- One iteration of `_process_events`: dequeue (or time out), then
flush and reset `last_batch_time` when the condition fires. -/
def processEventsStep (batchSize : ℕ) (batchTimeout : ℚ) (st : AccState)
    (now : ℚ) : AccState :=
  let st1 := dequeueStep st
  if shouldProcessBatch batchSize batchTimeout st1 now then
    { processBatchStep st1 with last_batch_time := now }
  else st1

/-- Several loop iterations, one per observed clock value. -/
def runAccum (batchSize : ℕ) (batchTimeout : ℚ) (st : AccState)
    (times : List ℚ) : AccState :=
  times.foldl (processEventsStep batchSize batchTimeout) st

/-- `AnomalyEngine.stop`: after the loop exits, any remaining batch is
processed once (`if self.event_batch: self._process_batch()`). -/
def stopAccum (st : AccState) : AccState := processBatchStep st

/-! ## Session tracker (`AnomalyEngine._update_user_sessions`) -/

/-- One per-user session dictionary.  The creation branch writes
`start_time`, `last_activity`, `event_count`, `risk_score`,
`event_types`; `duration` is first written by the update lines that run
in the same loop iteration, so every observable session has it ( `0`
here is the pre-update placeholder). -/
structure Session where
  start_time : ℚ
  last_activity : ℚ
  event_count : ℕ
  risk_score : ℚ
  duration : ℚ
  event_types : List String
deriving DecidableEq

/-- The fresh dictionary created on a user's first event. -/
def newSession (now : ℚ) : Session :=
  { start_time := now, last_activity := now, event_count := 0,
    risk_score := 0, duration := 0, event_types := [] }

/-- The update lines of `_update_user_sessions`, run for every event
with a truthy `user_id`: bump `last_activity`/`event_count`, recompute
`duration`, take the max with the event's `risk_score` (missing key
defaults to `0.0`), and add a nonempty `event_type` to the set. -/
def updateSession (s : Session) (now : ℚ) (eventRisk : Option ℚ)
    (eventType : String) : Session :=
  let s1 : Session :=
    { s with last_activity := now, event_count := s.event_count + 1,
             duration := now - s.start_time,
             risk_score := max s.risk_score (eventRisk.getD 0) }
  if eventType = "" then s1
  else if eventType ∈ s1.event_types then s1
  else { s1 with event_types := s1.event_types ++ [eventType] }

/-- One session update as a triple: the clock value `time.time()` read
in that iteration, the event's `risk_score`, and its `event_type`. -/
def applyUpd (s : Session) (u : ℚ × Option ℚ × String) : Session :=
  updateSession s u.1 u.2.1 u.2.2

/-- The session of one user after its first event (which creates the
dictionary and immediately updates it) and a list of later events. -/
def runSession (first : ℚ × Option ℚ × String)
    (rest : List (ℚ × Option ℚ × String)) : Session :=
  rest.foldl applyUpd (applyUpd (newSession first.1) first)

/-- The value the code maxes into `risk_score` for one update. -/
def riskVal (u : ℚ × Option ℚ × String) : ℚ := u.2.1.getD 0

/-! ## Session accessors and reference sharing
(`get_user_session_info` vs `_get_user_context`)

Python dictionaries are heap objects: `user_sessions` maps a user id to
the address of its session dictionary.  `get_user_session_info` returns
`session.copy()` (with the `event_types` set turned into a fresh list) —
a detached value; `_get_user_context` stores
`self.user_sessions.get(user_id, {})` — the dictionary itself, i.e. a
live reference. -/

/-- What an accessor hands to its caller: a detached copy of the
session, or the address of the live dictionary. -/
inductive SessionView where
  | snapshot (s : Session)
  | liveRef (addr : ℕ)
deriving DecidableEq

structure SessionHeapState where
  heap : List Session
  user_sessions : List (String × ℕ)
deriving DecidableEq

def readSession (st : SessionHeapState) (a : ℕ) : Option Session :=
  st.heap.get? a

/-- `AnomalyEngine.get_user_session_info`: `None` for an unknown user,
otherwise `session.copy()` with `event_types` converted to a list — a
snapshot value. -/
def getUserSessionInfo (st : SessionHeapState) (uid : String) :
    Option SessionView :=
  match List.lookup uid st.user_sessions with
  | none => none
  | some a => (readSession st a).map fun s => SessionView.snapshot s

/-- The `session_info` field built by `AnomalyEngine._get_user_context`:
`self.user_sessions.get(user_id, {})` — the live dictionary when the
user has a session, the default `{}` (no session) otherwise. -/
def getUserContextSessionInfo (st : SessionHeapState) (uid : Option String) :
    Option SessionView :=
  match uid with
  | none => none
  | some u =>
      match List.lookup u st.user_sessions with
      | none => none
      | some a => some (SessionView.liveRef a)

/-- Reading a view at a later point in time: a snapshot is
state-independent, a live reference is dereferenced in the current
state. -/
def observe (st : SessionHeapState) (v : SessionView) : Option Session :=
  match v with
  | SessionView.snapshot s => some s
  | SessionView.liveRef a => readSession st a

/-- `_update_user_sessions` for one event, on the heap model: events
without a truthy `user_id` are skipped; a known user's dictionary is
mutated in place at its address; a new user gets a fresh dictionary. -/
def updateUserSessionsHeap (st : SessionHeapState) (now : ℚ) (e : Event) :
    SessionHeapState :=
  match e.user_id with
  | none => st
  | some uid =>
      if uid = "" then st
      else
        match List.lookup uid st.user_sessions with
        | some a =>
            match readSession st a with
            | some s =>
                { st with heap := st.heap.set a (updateSession s now e.risk_score e.event_type) }
            | none => st
        | none =>
            { heap := st.heap ++ [updateSession (newSession now) now e.risk_score e.event_type],
              user_sessions := st.user_sessions ++ [(uid, st.heap.length)] }

/-! ### Concrete fixtures for the queue, accumulator and sessions -/

def ev1 : Event :=
  { user_id := some "u1", event_type := "login", risk_score := some (1/5),
    timestamp := some "2026-01-01T00:00:00" }

def ev2 : Event :=
  { user_id := some "u1", event_type := "file_access", risk_score := some (9/10),
    timestamp := some "2026-01-01T00:00:01" }

def fullQueueState : EngineQueueState :=
  { is_running := true, maxsize := 2, queue := [ev1, ev2] }

def roomQueueState : EngineQueueState :=
  { is_running := true, maxsize := 2, queue := [ev1] }

/-- Accumulator start state for the windowing scenario: two events
waiting in the queue, empty pending batch, last flush at time 0. -/
def accStart : AccState :=
  { queue := [ev1, ev2], event_batch := [], last_batch_time := 0, flushes := [] }

/-- Heap state with one session for `"u1"` at address 0 (its first event
arrived at time 0 with risk `1/5`). -/
def heapSt0 : SessionHeapState :=
  { heap := [applyUpd (newSession 0) (0, some (1/5), "login")],
    user_sessions := [("u1", 0)] }

/-- `heapSt0` after the batch consumer applies `ev2` at time 1. -/
def heapSt1 : SessionHeapState := updateUserSessionsHeap heapSt0 1 ev2

/-! ## Theorems -/

/-- Success of the `UPDATE ... WHERE id = ?` (`rowcount > 0`) is
equivalent to some stored row having the id. -/
theorem filter_id_pos_iff_any (l : List AlertRow) (i : String) :
    (0 < (l.filter fun row => row.id == i).length) ↔
      (l.any fun row => row.id == i) = true := by
  rw [List.length_pos, Ne, List.filter_eq_nil_iff, List.any_eq_true]
  push_neg
  simp

/-- C1 counterexample: on a store holding the single closed alert
`"a1"`, `acknowledge_alert` returns `true` and resets the status to
`'acknowledged'` — the claim says it returns `false` and leaves the
status `'closed'`. -/
theorem ack_closed_alert_reopens :
    closedRow.status = "closed" ∧
    (acknowledgeAlert closedDB "a1" "bob" "2026-01-02T00:00:00" "").1 = true ∧
    ((acknowledgeAlert closedDB "a1" "bob" "2026-01-02T00:00:00" "").2.alerts.map
      AlertRow.status) = ["acknowledged"] := by
  refine ⟨rfl, ?_, ?_⟩ <;>
    norm_num [acknowledgeAlert, closedDB, closedRow]

/-- C1 (amended): `acknowledge_alert` and `close_alert` check only that
the id exists, never the current status: each returns `true` exactly
when a row with the id is stored and rewrites that row's status
unconditionally (so acknowledging a closed alert succeeds and pulls it
back to `'acknowledged'`); on a nonexistent id both return `false` and
leave the store unchanged. -/
theorem ack_close_ignore_status (db : AlertDB) (i actor now notes : String) :
    ((acknowledgeAlert db i actor now notes).1 = db.alerts.any fun r => r.id == i) ∧
    (∀ r ∈ (acknowledgeAlert db i actor now notes).2.alerts,
      r.id = i → r.status = "acknowledged") ∧
    ((closeAlert db i actor now notes).1 = db.alerts.any fun r => r.id == i) ∧
    (∀ r ∈ (closeAlert db i actor now notes).2.alerts,
      r.id = i → r.status = "closed") ∧
    ((db.alerts.any fun r => r.id == i) = false →
      (acknowledgeAlert db i actor now notes).2 = db ∧
      (closeAlert db i actor now notes).2 = db) := by
  by_cases hany : (db.alerts.any fun r => r.id == i) = true
  · have hpos := (filter_id_pos_iff_any db.alerts i).mpr hany
    refine ⟨?_, ?_, ?_, ?_, ?_⟩
    · simp [acknowledgeAlert, if_pos hpos, hany]
    · intro r hr hri
      simp only [acknowledgeAlert, if_pos hpos] at hr
      obtain ⟨a, _, ha⟩ := List.mem_map.mp hr
      by_cases hai : a.id == i
      · rw [if_pos hai] at ha; rw [← ha]
      · rw [if_neg hai] at ha
        exact absurd (ha ▸ hri) (by simpa using hai)
    · simp [closeAlert, if_pos hpos, hany]
    · intro r hr hri
      simp only [closeAlert, if_pos hpos] at hr
      obtain ⟨a, _, ha⟩ := List.mem_map.mp hr
      by_cases hai : a.id == i
      · rw [if_pos hai] at ha; rw [← ha]
      · rw [if_neg hai] at ha
        exact absurd (ha ▸ hri) (by simpa using hai)
    · intro hfalse; rw [hfalse] at hany; exact absurd hany (by decide)
  · have hfalse : (db.alerts.any fun r => r.id == i) = false := by
      simpa using hany
    have hpos : ¬ 0 < (db.alerts.filter fun row => row.id == i).length := fun h =>
      hany ((filter_id_pos_iff_any db.alerts i).mp h)
    have hnomem : ∀ r ∈ db.alerts, r.id ≠ i := by
      intro r hr hri
      exact hany (List.any_eq_true.mpr ⟨r, hr, by simp [hri]⟩)
    refine ⟨?_, ?_, ?_, ?_, ?_⟩
    · simp [acknowledgeAlert, if_neg hpos, hfalse]
    · intro r hr hri
      simp only [acknowledgeAlert, if_neg hpos] at hr
      exact absurd hri (hnomem r hr)
    · simp [closeAlert, if_neg hpos, hfalse]
    · intro r hr hri
      simp only [closeAlert, if_neg hpos] at hr
      exact absurd hri (hnomem r hr)
    · intro _
      constructor <;> simp [acknowledgeAlert, closeAlert, if_neg hpos]

/-- C1 witness: the amended theorem applied to a store with a closed
alert `"a1"` (acknowledged row becomes `'acknowledged'`) and to the
nonexistent id `"zz"` (store unchanged). -/
theorem ack_close_ignore_status_witness :
    (∀ r ∈ (acknowledgeAlert closedDB "a1" "bob" "t" "n").2.alerts,
      r.id = "a1" → r.status = "acknowledged") ∧
    (acknowledgeAlert closedDB "zz" "bob" "t" "n").2 = closedDB ∧
    (closeAlert closedDB "zz" "bob" "t" "n").2 = closedDB := by
  refine ⟨(ack_close_ignore_status closedDB "a1" "bob" "t" "n").2.1, ?_, ?_⟩
  · exact ((ack_close_ignore_status closedDB "zz" "bob" "t" "n").2.2.2.2 (by decide)).1
  · exact ((ack_close_ignore_status closedDB "zz" "bob" "t" "n").2.2.2.2 (by decide)).2

/-- C2: creating an alert whose id already exists returns `false`
without raising (the `IntegrityError` on the `id` primary key is caught)
and leaves the store — in particular the previously stored row —
completely unchanged: no overwrite, no partial write, no notification. -/
theorem create_alert_duplicate_rejected (cfg : EmailConfig) (db : AlertDB)
    (alert : AlertInput) (i : String) (hid : alert.id = some i)
    (hdup : ∃ r ∈ db.alerts, r.id = i) :
    (createAlert cfg db alert).1 = false ∧ (createAlert cfg db alert).2 = db := by
  obtain ⟨r, hr, hri⟩ := hdup
  have hany : (db.alerts.any fun row => row.id == i) = true :=
    List.any_eq_true.mpr ⟨r, hr, by simp [hri]⟩
  obtain ⟨aid, ats, asev, ascore, auid, aty⟩ := alert
  simp only [AlertInput.id] at hid
  subst hid
  cases ats <;> cases asev <;> cases ascore <;>
    simp [createAlert, hany]

/-- C2 witness: the duplicate-id theorem applied to the store holding
closed alert `"a1"` and an input reusing id `"a1"`. -/
theorem create_alert_duplicate_rejected_witness :
    (createAlert emailOffConfig closedDB dupInput).1 = false ∧
    (createAlert emailOffConfig closedDB dupInput).2 = closedDB :=
  create_alert_duplicate_rejected emailOffConfig closedDB dupInput "a1" rfl
    ⟨closedRow, by simp [closedDB], rfl⟩

/-- C5: a queue at its configured capacity rejects a further event —
`add_event` returns `false` and the queued events are untouched, so
occupancy stays at capacity — while below capacity `add_event` on a
running engine returns `true`. -/
theorem add_event_capacity (st : EngineQueueState) (e : Event) (nowIso : String) :
    (st.queue.length = st.maxsize → 0 < st.maxsize →
      (addEvent st e nowIso).1 = false ∧
      (addEvent st e nowIso).2.queue = st.queue) ∧
    (st.is_running = true → st.queue.length < st.maxsize →
      (addEvent st e nowIso).1 = true) := by
  constructor
  · intro hfull hpos
    have hcond : 0 < st.maxsize ∧ st.maxsize ≤ st.queue.length :=
      ⟨hpos, hfull.ge⟩
    cases hrun : st.is_running <;>
      simp [addEvent, hrun, if_pos hcond]
  · intro hrun hlt
    have hcond : ¬(0 < st.maxsize ∧ st.maxsize ≤ st.queue.length) := by
      rintro ⟨-, hle⟩
      exact absurd hlt (Nat.not_lt.mpr hle)
    simp [addEvent, hrun, if_neg hcond]

/-- C5 witness: the capacity theorem at a concrete queue of capacity 2,
once full and once with one free slot. -/
theorem add_event_capacity_witness :
    (addEvent fullQueueState ev1 "t").1 = false ∧
    (addEvent fullQueueState ev1 "t").2.queue = fullQueueState.queue ∧
    (addEvent roomQueueState ev2 "t").1 = true := by
  refine ⟨((add_event_capacity fullQueueState ev1 "t").1 rfl (by decide)).1,
          ((add_event_capacity fullQueueState ev1 "t").1 rfl (by decide)).2,
          (add_event_capacity roomQueueState ev2 "t").2 rfl (by decide)⟩

/-- C8 (code bug): with email alerts enabled, an SMTP server configured
and a recipient list present, creating a HIGH alert takes the email
path, but the path dies with `NameError` (`MimeMultipart` vs the
imported `MIMEMultipart`) and its failure handler calls
`_log_notification` with an empty recipient list — so nothing is ever
written to `alert_notifications`: not for this concrete alert, and in
general no email attempt changes the notification store. -/
theorem email_notification_never_recorded :
    ((createAlert emailOnConfig emptyDB highInput).1 = true ∧
     (createAlert emailOnConfig emptyDB highInput).2.notifications = []) ∧
    (∀ cfg db aid, (sendEmailNotification cfg db aid).notifications =
      db.notifications) := by
  constructor
  · constructor <;>
      norm_num [createAlert, emailOnConfig, emptyDB, highInput,
        sendAlertNotifications, sendEmailNotification, logNotification]
  · intro cfg db aid
    cases h : cfg.smtp_server <;>
      simp [sendEmailNotification, h, logNotification]

/-- C10: every alert built by the scoring loop has severity MEDIUM or
HIGH, never LOW: alerts exist only for scores at or above
`alert_threshold`, and `_get_severity_level` maps such a score to
MEDIUM or HIGH for any configuration. -/
theorem generated_alert_severity_medium_or_high (cfg : EngineConfig)
    (events : List Event) (scores : List ℚ) (a : EngineAlert)
    (h : a ∈ generateAlerts cfg events scores) :
    a.severity = "MEDIUM" ∨ a.severity = "HIGH" := by
  obtain ⟨p, _, hfa⟩ := List.mem_filterMap.mp h
  by_cases hc : cfg.alert_threshold ≤ p.2.2
  · rw [if_pos hc, Option.some.injEq] at hfa
    have hsev : a.severity = getSeverityLevel cfg p.2.2 := by
      rw [← hfa]
    rw [hsev, getSeverityLevel]
    by_cases hh : cfg.high_alert_threshold ≤ p.2.2
    · right; rw [if_pos hh]
    · left; rw [if_neg hh, if_pos hc]
  · rw [if_neg hc] at hfa
    exact absurd hfa (Option.noConfusion)

/-- C10 witness: the severity dichotomy applied to the alert generated
for a single event with combined score `0.75` under the default
thresholds. -/
theorem generated_alert_severity_witness :
    ({ severity := "MEDIUM", anomaly_score := 3/4, event := mkEvent "u1",
       event_index := 0 } : EngineAlert).severity = "MEDIUM" ∨
    ({ severity := "MEDIUM", anomaly_score := 3/4, event := mkEvent "u1",
       event_index := 0 } : EngineAlert).severity = "HIGH" :=
  generated_alert_severity_medium_or_high defaultConfig [mkEvent "u1"] [3/4] _
    (by norm_num [generateAlerts, List.enum, List.enumFrom, getSeverityLevel,
      defaultConfig])

/-- C3: under the default thresholds, a combined score of exactly `0.7`
yields one MEDIUM alert and exactly `0.9` one HIGH alert (both lower
bounds inclusive); a batch whose scores are all below `0.7` yields no
alert; and every score in `[0.7, 0.9)` is classified MEDIUM. -/
theorem severity_threshold_boundaries :
    (∀ e, generateAlerts defaultConfig [e] [7/10] =
      [{ severity := "MEDIUM", anomaly_score := 7/10, event := e,
         event_index := 0 }]) ∧
    (∀ e, generateAlerts defaultConfig [e] [9/10] =
      [{ severity := "HIGH", anomaly_score := 9/10, event := e,
         event_index := 0 }]) ∧
    (∀ events scores, (∀ s ∈ scores, s < 7/10) →
      generateAlerts defaultConfig events scores = []) ∧
    (∀ s : ℚ, 7/10 ≤ s → s < 9/10 → getSeverityLevel defaultConfig s = "MEDIUM") := by
  refine ⟨?_, ?_, ?_, ?_⟩
  · intro e
    norm_num [generateAlerts, List.enum, List.enumFrom, getSeverityLevel,
      defaultConfig, List.filterMap_cons]
  · intro e
    norm_num [generateAlerts, List.enum, List.enumFrom, getSeverityLevel,
      defaultConfig, List.filterMap_cons]
  · intro events scores hlt
    rw [generateAlerts, List.filterMap_eq_nil_iff]
    intro p hp
    have hmem : p.2 ∈ events.zip scores := by
      obtain ⟨idx, pr⟩ := p
      rw [List.enum] at hp
      have heq := (List.mem_enumFrom hp).2.2
      exact heq ▸ List.getElem_mem _
    have hs : p.2.2 ∈ scores := (List.of_mem_zip hmem).2
    rw [if_neg]
    exact not_le.mpr (by simpa [defaultConfig] using hlt _ hs)
  · intro s h1 h2
    rw [getSeverityLevel, if_neg (by simpa [defaultConfig] using not_le.mpr h2),
      if_pos (by simpa [defaultConfig] using h1)]

/-- C3 witness: the boundary theorem applied at score `0.7` (MEDIUM
alert), `0.9` (HIGH alert), a batch of scores `0.5` (no alert), and
`0.75` (MEDIUM classification). -/
theorem severity_threshold_boundaries_witness :
    generateAlerts defaultConfig [mkEvent "u1"] [7/10] =
      [{ severity := "MEDIUM", anomaly_score := 7/10, event := mkEvent "u1",
         event_index := 0 }] ∧
    generateAlerts defaultConfig [mkEvent "u1"] [9/10] =
      [{ severity := "HIGH", anomaly_score := 9/10, event := mkEvent "u1",
         event_index := 0 }] ∧
    generateAlerts defaultConfig [mkEvent "u1"] [1/2] = [] ∧
    getSeverityLevel defaultConfig (3/4) = "MEDIUM" := by
  refine ⟨severity_threshold_boundaries.1 (mkEvent "u1"),
          severity_threshold_boundaries.2.1 (mkEvent "u1"),
          severity_threshold_boundaries.2.2.1 [mkEvent "u1"] [1/2] ?_,
          severity_threshold_boundaries.2.2.2 (3/4) (by norm_num) (by norm_num)⟩
  intro s hs
  rw [List.mem_singleton] at hs
  rw [hs]; norm_num

/-- The dequeue phase of a loop iteration touches neither the flush
history nor the last flush time. -/
theorem dequeueStep_frame (st : AccState) :
    (dequeueStep st).flushes = st.flushes ∧
    (dequeueStep st).last_batch_time = st.last_batch_time := by
  rw [dequeueStep]
  cases st.queue <;> simp

/-- C6: one consumer-loop iteration adds a flush exactly when, after the
dequeue, the pending batch has reached `batch_size`, or is non-empty
with at least `batch_timeout` elapsed since the last flush; the
windowing scenario `batch_size = 3`, `batch_timeout = 2`, two events
then silence up to `t = 2.5` produces exactly one flush holding those
two events; and `stop` flushes a non-empty pending batch exactly once
(and is a no-op on an empty one). -/
theorem batch_flush_condition :
    (∀ (bs : ℕ) (bt : ℚ) (st : AccState) (now : ℚ), 0 < bs →
      ((processEventsStep bs bt st now).flushes ≠ st.flushes ↔
        (bs ≤ (dequeueStep st).event_batch.length ∨
         ((dequeueStep st).event_batch ≠ [] ∧
          bt ≤ now - st.last_batch_time)))) ∧
    (runAccum 3 2 accStart [0, 0, 1, 2, 5/2]).flushes = [[ev1, ev2]] ∧
    (∀ st : AccState, st.event_batch ≠ [] →
      (stopAccum st).flushes = st.flushes ++ [st.event_batch] ∧
      (stopAccum st).event_batch = []) ∧
    (∀ st : AccState, st.event_batch = [] → stopAccum st = st) := by
  refine ⟨?_, ?_, ?_, ?_⟩
  · intro bs bt st now hbs
    obtain ⟨hfl, hlt⟩ := dequeueStep_frame st
    rw [processEventsStep]
    by_cases hempty : (dequeueStep st).event_batch = []
    · have hshould : shouldProcessBatch bs bt (dequeueStep st) now = false := by
        simp [shouldProcessBatch, hempty, Nat.not_le.mpr hbs]
      rw [hshould]
      simp [hfl, hempty, Nat.not_le.mpr hbs]
    · by_cases hshould : shouldProcessBatch bs bt (dequeueStep st) now = true
      · rw [hshould]
        simp only [if_true, processBatchStep,
          List.isEmpty_iff, hempty, if_neg, if_false]
        constructor
        · intro _
          rw [shouldProcessBatch, Bool.or_eq_true, decide_eq_true_eq,
            Bool.and_eq_true, decide_eq_true_eq] at hshould
          rcases hshould with h | ⟨-, h⟩
          · exact Or.inl h
          · exact Or.inr ⟨hempty, by rwa [hlt] at h⟩
        · intro _
          rw [hfl]
          intro hcontra
          have := congrArg List.length hcontra
          simp at this
      · have hfalse : shouldProcessBatch bs bt (dequeueStep st) now = false := by
          simpa using hshould
        rw [hfalse]
        simp only [Bool.false_eq_true, if_false, hfl, ne_eq, not_true_eq_false,
          false_iff]
        have hnot : ¬(bs ≤ (dequeueStep st).event_batch.length ∨
            ((dequeueStep st).event_batch ≠ [] ∧
             bt ≤ now - (dequeueStep st).last_batch_time)) := by
          intro hcontra
          apply hshould
          rw [shouldProcessBatch]
          rcases hcontra with h | ⟨hne, h⟩
          · simp [h]
          · simp [h, List.isEmpty_iff, hne]
        rw [hlt] at hnot
        exact fun hcontra => hnot (by tauto)
  · norm_num [runAccum, processEventsStep, dequeueStep, processBatchStep,
      shouldProcessBatch, accStart]
  · intro st hne
    constructor <;>
      simp [stopAccum, processBatchStep, List.isEmpty_iff, hne]
  · intro st hemp
    simp [stopAccum, processBatchStep, List.isEmpty_iff, hemp]

/-- C6 witness: the flush-condition theorem applied to the concrete
windowing start state at time `2` (timeout flush fires) and the stop
theorem applied to a pending batch of two events. -/
theorem batch_flush_condition_witness :
    ((processEventsStep 3 2 accStart 2).flushes ≠ accStart.flushes ↔
      (3 ≤ (dequeueStep accStart).event_batch.length ∨
       ((dequeueStep accStart).event_batch ≠ [] ∧
        (2:ℚ) ≤ 2 - accStart.last_batch_time))) ∧
    (stopAccum { queue := [], event_batch := [ev1, ev2], last_batch_time := 0,
                 flushes := [] }).flushes = [[ev1, ev2]] := by
  refine ⟨batch_flush_condition.1 3 2 accStart 2 (by decide), ?_⟩
  have h := (batch_flush_condition.2.2.1
    { queue := [], event_batch := [ev1, ev2], last_batch_time := 0,
      flushes := [] } (by simp)).1
  simpa using h

/-- Field equations for one session update. -/
theorem updateSession_fields (s : Session) (now : ℚ) (r : Option ℚ) (ty : String) :
    (updateSession s now r ty).start_time = s.start_time ∧
    (updateSession s now r ty).last_activity = now ∧
    (updateSession s now r ty).event_count = s.event_count + 1 ∧
    (updateSession s now r ty).duration = now - s.start_time ∧
    (updateSession s now r ty).risk_score = max s.risk_score (r.getD 0) := by
  simp only [updateSession]
  split_ifs <;> simp

theorem foldl_applyUpd_start (l : List (ℚ × Option ℚ × String)) :
    ∀ s : Session, (l.foldl applyUpd s).start_time = s.start_time := by
  induction l with
  | nil => intro s; rfl
  | cons u t ih =>
      intro s
      rw [List.foldl_cons, ih]
      exact (updateSession_fields s u.1 u.2.1 u.2.2).1

theorem foldl_applyUpd_count (l : List (ℚ × Option ℚ × String)) :
    ∀ s : Session, (l.foldl applyUpd s).event_count = s.event_count + l.length := by
  induction l with
  | nil => intro s; simp
  | cons u t ih =>
      intro s
      rw [List.foldl_cons, ih]
      have := (updateSession_fields s u.1 u.2.1 u.2.2).2.2.1
      rw [show applyUpd s u = updateSession s u.1 u.2.1 u.2.2 from rfl, this]
      simp only [List.length_cons]
      omega

theorem foldl_applyUpd_last (l : List (ℚ × Option ℚ × String)) :
    ∀ s : Session, (l.foldl applyUpd s).last_activity =
      (match l.getLast? with
       | none => s.last_activity
       | some u => u.1) := by
  induction l with
  | nil => intro s; rfl
  | cons u t ih =>
      intro s
      rw [List.foldl_cons, ih]
      cases t with
      | nil =>
          simp only [List.getLast?_singleton]
          exact (updateSession_fields s u.1 u.2.1 u.2.2).2.1
      | cons v t' =>
          rw [List.getLast?_cons_cons]
          cases h : (v :: t').getLast? with
          | none => simp at h
          | some w => rfl

theorem foldl_applyUpd_risk (l : List (ℚ × Option ℚ × String)) :
    ∀ s : Session, (l.foldl applyUpd s).risk_score =
      (l.map riskVal).foldl max s.risk_score := by
  induction l with
  | nil => intro s; rfl
  | cons u t ih =>
      intro s
      rw [List.foldl_cons, ih, List.map_cons, List.foldl_cons]
      rw [show applyUpd s u = updateSession s u.1 u.2.1 u.2.2 from rfl,
        (updateSession_fields s u.1 u.2.1 u.2.2).2.2.2.2]
      rfl

theorem le_foldl_max (l : List ℚ) :
    ∀ a : ℚ, a ≤ l.foldl max a ∧ ∀ x ∈ l, x ≤ l.foldl max a := by
  induction l with
  | nil => intro a; exact ⟨le_refl a, by simp⟩
  | cons h t ih =>
      intro a
      constructor
      · exact le_trans (le_max_left a h) (ih (max a h)).1
      · intro x hx
        rcases List.mem_cons.mp hx with rfl | hx
        · exact le_trans (le_max_right a x) (ih (max a x)).1
        · exact (ih (max a h)).2 x hx

theorem foldl_max_attained (l : List ℚ) :
    ∀ a : ℚ, l.foldl max a = a ∨ l.foldl max a ∈ l := by
  induction l with
  | nil => intro a; exact Or.inl rfl
  | cons h t ih =>
      intro a
      rw [List.foldl_cons]
      rcases ih (max a h) with heq | hmem
      · rw [heq]
        rcases max_choice a h with h1 | h1
        · exact Or.inl h1
        · exact Or.inr (by rw [h1]; exact List.mem_cons_self _ _)
      · exact Or.inr (List.mem_cons_of_mem _ hmem)

/-- The risk score accumulated by `runSession` is the max-fold of the
per-update risk values over a zero seed. -/
theorem runSession_risk (first : ℚ × Option ℚ × String)
    (rest : List (ℚ × Option ℚ × String)) :
    (runSession first rest).risk_score =
      ((first :: rest).map riskVal).foldl max 0 := by
  rw [runSession, foldl_applyUpd_risk, List.map_cons, List.foldl_cons]
  have hbase : (applyUpd (newSession first.1) first).risk_score =
      max 0 (riskVal first) := by
    rw [show applyUpd (newSession first.1) first =
        updateSession (newSession first.1) first.1 first.2.1 first.2.2 from rfl,
      (updateSession_fields _ _ _ _).2.2.2.2]
    rfl
  rw [hbase]

/-- Every observable session satisfies
`duration = last_activity - start_time`: the last thing that happened to
it is always an `updateSession`, which (re)establishes the equation. -/
theorem runSession_duration_eq (first : ℚ × Option ℚ × String)
    (rest : List (ℚ × Option ℚ × String)) :
    (runSession first rest).duration =
      (runSession first rest).last_activity -
        (runSession first rest).start_time := by
  induction rest using List.reverseRecOn with
  | nil =>
      rw [runSession]
      simp only [List.foldl_nil]
      obtain ⟨h1, h2, -, h4, -⟩ :=
        updateSession_fields (newSession first.1) first.1 first.2.1 first.2.2
      rw [show applyUpd (newSession first.1) first =
          updateSession (newSession first.1) first.1 first.2.1 first.2.2 from rfl,
        h4, h2, h1]
  | append_singleton t u _ =>
      rw [runSession, List.foldl_append, List.foldl_cons, List.foldl_nil]
      obtain ⟨h1, h2, -, h4, -⟩ :=
        updateSession_fields (t.foldl applyUpd (applyUpd (newSession first.1) first))
          u.1 u.2.1 u.2.2
      rw [show applyUpd (t.foldl applyUpd (applyUpd (newSession first.1) first)) u =
          updateSession (t.foldl applyUpd (applyUpd (newSession first.1) first))
            u.1 u.2.1 u.2.2 from rfl, h4, h2, h1]

/-- The session's `start_time` is the clock value of its first event. -/
theorem runSession_start (first : ℚ × Option ℚ × String)
    (rest : List (ℚ × Option ℚ × String)) :
    (runSession first rest).start_time = first.1 := by
  rw [runSession, foldl_applyUpd_start]
  rw [show applyUpd (newSession first.1) first =
      updateSession (newSession first.1) first.1 first.2.1 first.2.2 from rfl,
    (updateSession_fields _ _ _ _).1]
  rfl

/-- C7: for every user session — a first event plus any sequence of
further updates — `event_count` equals the number of events applied;
`duration` always equals `last_activity - start_time` and is
nonnegative whenever no update's clock value precedes the session
start; one update never decreases `risk_score`; when all event risk
scores are nonnegative (the data model has `risk_score ∈ [0,1]`) the
final `risk_score` is exactly the maximum risk score seen; and the
0.2, 0.9, 0.1 scenario ends with `risk_score = 0.9` and
`event_count = 3`. -/
theorem session_aggregation_invariants (first : ℚ × Option ℚ × String)
    (rest : List (ℚ × Option ℚ × String)) :
    (runSession first rest).event_count = rest.length + 1 ∧
    (runSession first rest).duration =
      (runSession first rest).last_activity -
        (runSession first rest).start_time ∧
    ((∀ u ∈ rest, first.1 ≤ u.1) → 0 ≤ (runSession first rest).duration) ∧
    (∀ (s : Session) (now : ℚ) (r : Option ℚ) (ty : String),
      s.risk_score ≤ (updateSession s now r ty).risk_score) ∧
    ((∀ u ∈ first :: rest, 0 ≤ riskVal u) →
      (∀ u ∈ first :: rest,
        riskVal u ≤ (runSession first rest).risk_score) ∧
      ∃ u ∈ first :: rest, (runSession first rest).risk_score = riskVal u) ∧
    (runSession (0, some (1/5), "login")
      [(1, some (9/10), "file_access"), (2, some (1/10), "usb")]).risk_score
      = 9/10 ∧
    (runSession (0, some (1/5), "login")
      [(1, some (9/10), "file_access"), (2, some (1/10), "usb")]).event_count
      = 3 := by
  refine ⟨?_, runSession_duration_eq first rest, ?_, ?_, ?_, ?_, ?_⟩
  · rw [runSession, foldl_applyUpd_count,
      show applyUpd (newSession first.1) first =
        updateSession (newSession first.1) first.1 first.2.1 first.2.2 from rfl,
      (updateSession_fields _ _ _ _).2.2.1]
    show (newSession first.1).event_count + 1 + rest.length = rest.length + 1
    have h0 : (newSession first.1).event_count = 0 := rfl
    rw [h0]
    omega
  · intro hts
    rw [runSession_duration_eq, sub_nonneg, runSession_start, runSession,
      foldl_applyUpd_last]
    cases h : rest.getLast? with
    | none =>
        rw [show applyUpd (newSession first.1) first =
            updateSession (newSession first.1) first.1 first.2.1 first.2.2 from rfl,
          (updateSession_fields _ _ _ _).2.1]
    | some u => exact hts u (List.mem_of_mem_getLast? h)
  · intro s now r ty
    rw [(updateSession_fields s now r ty).2.2.2.2]
    exact le_max_left _ _
  · intro hnn
    have hrisk := runSession_risk first rest
    constructor
    · intro u hu
      rw [hrisk]
      exact (le_foldl_max _ 0).2 _ (List.mem_map_of_mem riskVal hu)
    · rcases foldl_max_attained ((first :: rest).map riskVal) 0 with h0 | hmem
      · refine ⟨first, List.mem_cons_self _ _, ?_⟩
        have h1 : riskVal first ≤ ((first :: rest).map riskVal).foldl max 0 :=
          (le_foldl_max _ 0).2 _
            (List.mem_map_of_mem riskVal (List.mem_cons_self _ _))
        rw [h0] at h1
        rw [hrisk, h0]
        exact (le_antisymm h1 (hnn first (List.mem_cons_self _ _))).symm
      · obtain ⟨u, hu, hueq⟩ := List.mem_map.mp hmem
        exact ⟨u, hu, by rw [hrisk, ← hueq]⟩
  · rw [runSession_risk]
    norm_num [riskVal, max_def]
  · rfl

/-- C7 witness: the session theorem applied to a concrete two-event
session with clock values 0, 1 and risks 0.2, 0.9. -/
theorem session_aggregation_invariants_witness :
    (0:ℚ) ≤ (runSession (0, some (1/5), "login")
      [(1, some (9/10), "file_access")]).duration ∧
    ∃ u ∈ ((0:ℚ), some (1/5:ℚ), "login") :: [((1:ℚ), some (9/10:ℚ), "file_access")],
      (runSession (0, some (1/5), "login")
        [(1, some (9/10), "file_access")]).risk_score = riskVal u := by
  constructor
  · refine (session_aggregation_invariants _ _).2.2.1 ?_
    intro u hu
    rw [List.mem_singleton] at hu
    rw [hu]
    norm_num
  · refine ((session_aggregation_invariants _ _).2.2.2.2.1 ?_).2
    intro u hu
    rcases List.mem_cons.mp hu with rfl | hu
    · norm_num [riskVal]
    · rw [List.mem_singleton] at hu
      rw [hu]
      norm_num [riskVal]

/-- Unfolding the spec sums over a non-contributing head. -/
theorem spec_sums_cons_false (r : ModelResult) (rs : List ModelResult)
    (n i : ℕ) (h : contributes n r = false) :
    specTotalWeight (r :: rs) n = specTotalWeight rs n ∧
    specWeightedSum (r :: rs) n i = specWeightedSum rs n i := by
  constructor <;> simp [specTotalWeight, specWeightedSum, List.filter_cons, h]

/-- Unfolding the spec sums over a contributing head. -/
theorem spec_sums_cons_true (r : ModelResult) (rs : List ModelResult)
    (n i : ℕ) (h : contributes n r = true) :
    specTotalWeight (r :: rs) n = r.model_weight + specTotalWeight rs n ∧
    specWeightedSum (r :: rs) n i =
      r.model_weight * ((normalizedOutput r).getD []).getD i 0 +
        specWeightedSum rs n i := by
  constructor <;> simp [specTotalWeight, specWeightedSum, List.filter_cons, h]

/-- The accumulation loop of `_combine_model_results` computes, over any
start accumulator of the right length, exactly the spec's two sums. -/
theorem combineStep_foldl_spec (n : ℕ) (results : List ModelResult) :
    ∀ (c : List ℚ) (w : ℚ), c.length = n →
    ((results.foldl (combineStep n) (c, w)).2 = w + specTotalWeight results n ∧
     (results.foldl (combineStep n) (c, w)).1.length = n ∧
     ∀ i, i < n → (results.foldl (combineStep n) (c, w)).1.getD i 0 =
       c.getD i 0 + specWeightedSum results n i) := by
  induction results with
  | nil =>
      intro c w hc
      refine ⟨by simp [specTotalWeight], by simpa using hc, ?_⟩
      intro i hi
      simp [specWeightedSum]
  | cons r rs ih =>
      intro c w hc
      rw [List.foldl_cons]
      cases hno : normalizedOutput r with
      | none =>
          have hcontrib : contributes n r = false := by
            simp [contributes, hno]
          have hstep : combineStep n (c, w) r = (c, w) := by
            simp only [combineStep, hno]
          rw [hstep]
          obtain ⟨h1, h2, h3⟩ := ih c w hc
          refine ⟨?_, h2, ?_⟩
          · rw [h1, (spec_sums_cons_false r rs n 0 hcontrib).1]
          · intro i hi
            rw [h3 i hi, (spec_sums_cons_false r rs n i hcontrib).2]
      | some s =>
          by_cases hlen : s.length = n
          · have hcontrib : contributes n r = true := by
              simp [contributes, hno, hlen]
            have hstep : combineStep n (c, w) r =
                (List.zipWith (fun a b => a + r.model_weight * b) c s,
                 w + r.model_weight) := by
              simp only [combineStep, hno, if_pos hlen]
            rw [hstep]
            have hzlen : (List.zipWith (fun a b => a + r.model_weight * b) c s).length = n := by
              rw [List.length_zipWith, hc, hlen, Nat.min_self]
            obtain ⟨h1, h2, h3⟩ := ih _ (w + r.model_weight) hzlen
            refine ⟨?_, h2, ?_⟩
            · rw [h1, (spec_sums_cons_true r rs n 0 hcontrib).1]
              ring
            · intro i hi
              rw [h3 i hi, (spec_sums_cons_true r rs n i hcontrib).2, hno]
              have hzget : (List.zipWith (fun a b => a + r.model_weight * b) c s).getD i 0 =
                  c.getD i 0 + r.model_weight * s.getD i 0 := by
                rw [List.getD_eq_getElem _ _ (by rw [hzlen]; exact hi),
                  List.getElem_zipWith,
                  ← List.getD_eq_getElem c 0 (by rw [hc]; exact hi),
                  ← List.getD_eq_getElem s 0 (by rw [hlen]; exact hi)]
              rw [hzget]
              simp only [Option.getD_some]
              ring
          · have hcontrib : contributes n r = false := by
              simp [contributes, hno, hlen]
            have hstep : combineStep n (c, w) r = (c, w) := by
              simp only [combineStep, hno, if_neg hlen]
            rw [hstep]
            obtain ⟨h1, h2, h3⟩ := ih c w hc
            refine ⟨?_, h2, ?_⟩
            · rw [h1, (spec_sums_cons_false r rs n 0 hcontrib).1]
            · intro i hi
              rw [h3 i hi, (spec_sums_cons_false r rs n i hcontrib).2]

/-- C4: the combined per-event score is exactly
`Σ(weight_i · normalized_score_i) / Σ(weight_i)` over the detectors
whose normalized output has the batch length; appending a detector with
a mismatched output length changes nothing; and the concrete 0.6/0.8 +
0.4/0.2 example combines to exactly `0.56`, below the default threshold,
producing no alert. -/
theorem combine_weighted_average :
    (∀ (results : List ModelResult) (n i : ℕ), i < n →
      0 < specTotalWeight results n →
      (combineModelResults results n).getD i 0 =
        specWeightedSum results n i / specTotalWeight results n) ∧
    (∀ (results : List ModelResult) (n : ℕ) (r : ModelResult),
      contributes n r = false →
      combineModelResults (results ++ [r]) n = combineModelResults results n) ∧
    (combineModelResults exampleResults 3).getD 1 0 = 14/25 ∧
    generateAlerts defaultConfig exampleEvents
      (combineModelResults exampleResults 3) = [] := by
  refine ⟨?_, ?_, ?_, ?_⟩
  · intro results n i hi hw
    obtain ⟨h1, h2, h3⟩ :=
      combineStep_foldl_spec n results (List.replicate n 0) 0 (by simp)
    have hrepl : (List.replicate n (0:ℚ)).getD i 0 = 0 := by
      rw [List.getD_eq_getElem _ _ (by simpa using hi), List.getElem_replicate]
    simp only [combineModelResults]
    have hpos : 0 < (results.foldl (combineStep n) (List.replicate n 0, 0)).2 := by
      rw [h1, zero_add]; exact hw
    rw [if_pos hpos]
    rw [List.getD_eq_getElem _ _ (by rw [List.length_map, h2]; exact hi),
      List.getElem_map,
      ← List.getD_eq_getElem _ 0 (by rw [h2]; exact hi),
      h3 i hi, hrepl, zero_add, h1, zero_add]
  · intro results n r h
    have hstep : ∀ acc : List ℚ × ℚ, combineStep n acc r = acc := by
      intro acc
      cases hno : normalizedOutput r with
      | none => simp only [combineStep, hno]
      | some s =>
          simp only [contributes, hno] at h
          simp only [combineStep, hno, if_neg]
          rw [if_neg]
          simpa using h
    rw [combineModelResults, combineModelResults, List.foldl_append,
      List.foldl_cons, List.foldl_nil, hstep]
  · norm_num [combineModelResults, combineStep, normalizedOutput,
      normalizeScores, listMin, listMax, epsNorm, exampleResults,
      exampleResultA, exampleResultB, List.replicate, List.zipWith]
  · norm_num [combineModelResults, combineStep, normalizedOutput,
      normalizeScores, listMin, listMax, epsNorm, exampleResults,
      exampleResultA, exampleResultB, List.replicate, List.zipWith,
      generateAlerts, defaultConfig, exampleEvents, List.enum,
      List.enumFrom, getSeverityLevel]

/-- C4 witness: the weighted-average formula applied at event index 1 of
the concrete two-detector example (total weight `1 > 0`), and the
mismatched-length exclusion applied to a detector with no output. -/
theorem combine_weighted_average_witness :
    (combineModelResults exampleResults 3).getD 1 0 =
      specWeightedSum exampleResults 3 1 / specTotalWeight exampleResults 3 ∧
    combineModelResults
      (exampleResults ++
        [{ anomaly_scores := none, predictions := none, model_weight := 1 }]) 3 =
      combineModelResults exampleResults 3 := by
  constructor
  · refine combine_weighted_average.1 exampleResults 3 1 (by omega) ?_
    norm_num [specTotalWeight, contributes, normalizedOutput, normalizeScores,
      listMin, listMax, epsNorm, exampleResults, exampleResultA, exampleResultB,
      List.filter]
  · exact combine_weighted_average.2.1 exampleResults 3 _ rfl

/-- C9 counterexample: `_get_user_context` stores the live session
dictionary: after the batch consumer applies one more event for
`"u1"`, the session seen through the previously built
`user_context.session_info` has changed (`event_count` 1 became 2) —
the claim says it is unaffected. -/
theorem user_context_live_reference :
    getUserContextSessionInfo heapSt0 (some "u1") =
      some (SessionView.liveRef 0) ∧
    observe heapSt0 (SessionView.liveRef 0) ≠
      observe heapSt1 (SessionView.liveRef 0) := by
  refine ⟨rfl, ?_⟩
  intro h
  have h1 : (observe heapSt0 (SessionView.liveRef 0)).map Session.event_count =
      some 1 := rfl
  have h2 : (observe heapSt1 (SessionView.liveRef 0)).map Session.event_count =
      some 2 := rfl
  rw [h] at h1
  rw [h1] at h2
  exact absurd h2 (by decide)

/-- C9 (amended): `get_user_session_info` hands back a detached snapshot
— observing it in any later state gives the same value — while
`_get_user_context` embeds the live reference to the user's session
dictionary, so the `session_info` inside an alert's `user_context`
tracks subsequent session updates. -/
theorem session_snapshot_vs_context_ref :
    (∀ (st : SessionHeapState) (uid : String) (v : SessionView),
      getUserSessionInfo st uid = some v →
      ∀ st2 : SessionHeapState, observe st2 v = observe st v) ∧
    (∀ (st : SessionHeapState) (u : String) (a : ℕ),
      List.lookup u st.user_sessions = some a →
      getUserContextSessionInfo st (some u) =
        some (SessionView.liveRef a)) := by
  constructor
  · intro st uid v hv st2
    cases hl : List.lookup uid st.user_sessions with
    | none =>
        simp only [getUserSessionInfo, hl] at hv
        exact absurd hv (by simp)
    | some a =>
        simp only [getUserSessionInfo, hl] at hv
        cases hr : readSession st a with
        | none => rw [hr] at hv; exact absurd hv (by simp)
        | some s =>
            rw [hr] at hv
            have hveq : SessionView.snapshot s = v := by
              simpa using hv
            rw [← hveq]
            rfl
  · intro st u a ha
    simp only [getUserContextSessionInfo, ha]

/-- C9 witness: the amended theorem applied to the concrete one-user
heap: the snapshot of `"u1"`'s session observed after the update equals
the one observed before, and the context for `"u1"` is the live
reference to address 0. -/
theorem session_snapshot_vs_context_ref_witness :
    observe heapSt1
      (SessionView.snapshot (applyUpd (newSession 0) (0, some (1/5), "login"))) =
      observe heapSt0
        (SessionView.snapshot (applyUpd (newSession 0) (0, some (1/5), "login"))) ∧
    getUserContextSessionInfo heapSt0 (some "u1") =
      some (SessionView.liveRef 0) := by
  constructor
  · exact session_snapshot_vs_context_ref.1 heapSt0 "u1" _ rfl heapSt1
  · exact session_snapshot_vs_context_ref.2 heapSt0 "u1" 0 rfl

end ThreatDetection
